import Mathlib

/-!
A shallow embedding of the profile-validation scripts of the
RAK-BACnet-Profiles repository (scripts/validate-profile.js,
scripts/test-codec.js, scripts/utils/yaml-parser.js — both source versions —
and scripts/utils/hex-converter.js), together with proofs about the
embedded functions.

JSON-like runtime values are modelled by the inductive type `Json`.
JavaScript numbers are modelled as integers: the validators only ever
compare numbers for strict equality and test them for truthiness, and all
values appearing in the claims are integral.  A JavaScript value that may
be `undefined` (an absent object field) is modelled as `Option Json`, with
`none` playing the role of `undefined`.
-/

inductive Json where
  | null
  | bool (b : Bool)
  | num (n : Int)
  | str (s : String)
  | arr (xs : List Json)
  | obj (kvs : List (String × Json))
deriving Inhabited

/-- JavaScript truthiness of a value (`if (v)`). -/
def jsTruthy : Json → Bool
  | .null => false
  | .bool b => b
  | .num n => n != 0
  | .str s => s != ""
  | .arr _ => true
  | .obj _ => true

/-- Truthiness of a possibly-undefined value: `undefined` is falsy. -/
def jsTruthyOpt : Option Json → Bool
  | none => false
  | some j => jsTruthy j

/-- `typeof v` for the modelled values (note `typeof null === "object"`). -/
def jsTypeof : Json → String
  | .null => "object"
  | .bool _ => "boolean"
  | .num _ => "number"
  | .str _ => "string"
  | .arr _ => "object"
  | .obj _ => "object"

def isNull : Json → Bool
  | .null => true
  | _ => false

/-- Non-null values of `typeof === "object"`: arrays and plain objects.
(`null` also has `typeof "object"` but the call sites below test it
separately first, exactly as the source does.) -/
def isObjLike : Json → Bool
  | .arr _ => true
  | .obj _ => true
  | _ => false

/-- The index/value entries of a JavaScript array, with stringified
indices starting at `start` — `Object.entries([10,20])` is
`[["0",10],["1",20]]`. -/
def idxEntries (xs : List Json) (start : Nat) : List (String × Json) :=
  match xs with
  | [] => []
  | x :: rest => (toString start, x) :: idxEntries rest (start + 1)

/-- The index/character entries of a string — `Object.entries("ab")` is
`[["0","a"],["1","b"]]`. -/
def strEntries (cs : List Char) (start : Nat) : List (String × Json) :=
  match cs with
  | [] => []
  | c :: rest => (toString start, Json.str (String.mk [c])) :: strEntries rest (start + 1)

/-- `Object.entries(v)`: the own enumerable key/value pairs of a value. -/
def jsEntries : Json → List (String × Json)
  | .obj kvs => kvs
  | .arr xs => idxEntries xs 0
  | .str s => strEntries s.data 0
  | _ => []

/-- First binding of a key in an association list (JS objects cannot carry
duplicate keys, so on faithful inputs this is the unique binding). -/
def assocFind : List (String × Json) → String → Option Json
  | [], _ => none
  | (k', v) :: rest, k => if k' == k then some v else assocFind rest k

/-- Property access `v[k]`, `undefined` when the key is absent. -/
def jsField (j : Json) (k : String) : Option Json :=
  assocFind (jsEntries j) k

/-- Property access defaulted to `null`; `deepEqual` only applies it to
keys that are known to be present. -/
def jsGet (es : List (String × Json)) (k : String) : Json :=
  (assocFind es k).getD Json.null

/-- JavaScript strict equality `===` restricted to the modelled values.
On two primitives it is value equality; on two composite values it is
reference equality, which we model as `false` (structurally equal values
with the same reference are absorbed by the recursive branches of
`deepEqual`, see `deepEqual_refl`). -/
def strictEqPrim : Json → Json → Bool
  | .null, .null => true
  | .bool a, .bool b => a == b
  | .num a, .num b => a == b
  | .str a, .str b => a == b
  | _, _ => false

lemma sizeOf_lt_of_mem_arr {x : Json} {xs : List Json} (h : x ∈ xs) :
    sizeOf x < sizeOf (Json.arr xs) := by
  have := List.sizeOf_lt_of_mem h
  simp only [Json.arr.sizeOf_spec]
  omega

lemma mem_zip_split {p : Json × Json} {xs ys : List Json} (h : p ∈ xs.zip ys) :
    p.1 ∈ xs ∧ p.2 ∈ ys := by
  induction xs generalizing ys with
  | nil => simp [List.zip] at h
  | cons x xt ih =>
    cases ys with
    | nil => simp [List.zip] at h
    | cons y yt =>
      rcases List.mem_cons.mp h with h1 | h2
      · constructor
        · exact List.mem_cons.mpr (Or.inl (by rw [h1]))
        · exact List.mem_cons.mpr (Or.inl (by rw [h1]))
      · obtain ⟨hx, hy⟩ := ih h2
        exact ⟨List.mem_cons_of_mem _ hx, List.mem_cons_of_mem _ hy⟩

lemma assocFind_mem {es : List (String × Json)} {k : String} {v : Json}
    (h : assocFind es k = some v) : v ∈ es.map Prod.snd := by
  induction es with
  | nil => simp [assocFind] at h
  | cons e rest ih =>
    obtain ⟨k', v'⟩ := e
    by_cases hk : (k' == k) = true
    · simp [assocFind, hk] at h
      simp [h]
    · simp [assocFind, hk] at h
      simp [ih h]

lemma mem_map_snd_idxEntries {v : Json} {xs : List Json} {n : Nat}
    (h : v ∈ (idxEntries xs n).map Prod.snd) : v ∈ xs := by
  induction xs generalizing n with
  | nil => simp [idxEntries] at h
  | cons x rest ih =>
    simp only [idxEntries, List.map_cons, List.mem_cons] at h
    rcases h with h | h
    · simp [h]
    · exact List.mem_cons_of_mem _ (ih h)

lemma one_le_sizeOf_list {α : Type} [SizeOf α] (xs : List α) : 1 ≤ sizeOf xs := by
  cases xs <;> simp_arith

lemma jsGet_sizeOf_lt {j : Json} (h : isObjLike j = true) (k : String) :
    sizeOf (jsGet (jsEntries j) k) < sizeOf j := by
  cases j with
  | arr xs =>
    unfold jsGet
    cases hf : assocFind (jsEntries (Json.arr xs)) k with
    | none =>
      have := one_le_sizeOf_list xs
      simp only [Option.getD_none, Json.null.sizeOf_spec, Json.arr.sizeOf_spec]
      omega
    | some v =>
      have hv : v ∈ xs := mem_map_snd_idxEntries (assocFind_mem hf)
      simpa using sizeOf_lt_of_mem_arr hv
  | obj kvs =>
    unfold jsGet
    cases hf : assocFind (jsEntries (Json.obj kvs)) k with
    | none =>
      have := one_le_sizeOf_list kvs
      simp only [Option.getD_none, Json.null.sizeOf_spec, Json.obj.sizeOf_spec]
      omega
    | some v =>
      have hv : v ∈ kvs.map Prod.snd := assocFind_mem hf
      obtain ⟨⟨k', v'⟩, hmem, rfl⟩ := List.mem_map.mp hv
      have h1 := List.sizeOf_lt_of_mem hmem
      simp only [Option.getD_some, Json.obj.sizeOf_spec, Prod.mk.sizeOf_spec] at *
      omega
  | null => simp [isObjLike] at h
  | bool b => simp [isObjLike] at h
  | num n => simp [isObjLike] at h
  | str s => simp [isObjLike] at h

/-- The deep-equality comparator of scripts/validate-profile.js
(`deepEqual`).  Mirrors the source: the strict-equality shortcut, the
null/undefined guard, the array branch (same length, recursively equal at
every index), the object branch (same key count, every key of the first
value present in the second with recursively equal values) which also
receives mixed array/object pairs, and the final primitive fallthrough. -/
def deepEqual (a b : Json) : Bool :=
  if strictEqPrim a b then true
  else if isNull a || isNull b then false
  else
    match a, b with
    | .arr xs, .arr ys =>
        (xs.length == ys.length) &&
        (xs.zip ys).attach.all fun p => deepEqual p.1.1 p.1.2
    | a', b' =>
        if h : isObjLike a' && isObjLike b' then
          (jsEntries a').length == (jsEntries b').length &&
          ((jsEntries a').map Prod.fst).attach.all fun k =>
            ((jsEntries b').map Prod.fst).contains k.1 &&
            deepEqual (jsGet (jsEntries a') k.1) (jsGet (jsEntries b') k.1)
        else false
termination_by sizeOf a + sizeOf b
decreasing_by
  · have h1 := (mem_zip_split p.2).1
    have h2 := (mem_zip_split p.2).2
    have g1 := sizeOf_lt_of_mem_arr h1
    have g2 := sizeOf_lt_of_mem_arr h2
    omega
  · rw [Bool.and_eq_true] at h
    have g1 := jsGet_sizeOf_lt h.1 k.1
    have g2 := jsGet_sizeOf_lt h.2 k.1
    omega

/-- Deep equality lifted to possibly-undefined values, following the
source's behaviour of `deepEqual` on `undefined` arguments
(`undefined === undefined` is true; otherwise the `== null` guard
rejects). -/
def deepEqualOpt : Option Json → Option Json → Bool
  | none, none => true
  | none, _ => false
  | _, none => false
  | some x, some y => deepEqual x y

/-- Does `hay` start with `needle`? (first argument is the needle). -/
def startsWithList : List Char → List Char → Bool
  | [], _ => true
  | _ :: _, [] => false
  | a :: as, b :: bs => a == b && startsWithList as bs

/-- Does the second list contain the first as a contiguous sublist? -/
def hasSubList (needle : List Char) : List Char → Bool
  | [] => startsWithList needle []
  | c :: cs => startsWithList needle (c :: cs) || hasSubList needle cs

/-- JavaScript `hay.includes(needle)`: substring containment. -/
def jsIncludes (hay needle : String) : Bool :=
  hasSubList needle.data hay.data

/-- JavaScript `String(v)` as used by template literals: `null`/booleans
and numbers print their literal form, strings print themselves, plain
objects print "[object Object]", arrays join their elements with commas
with `null` elements rendered empty. -/
def jsDisplay : Json → String
  | .null => "null"
  | .bool b => if b then "true" else "false"
  | .num n => toString n
  | .str s => s
  | .obj _ => "[object Object]"
  | .arr xs =>
      String.intercalate "," (xs.attach.map fun e =>
        if isNull e.1 then "" else jsDisplay e.1)
termination_by j => sizeOf j
decreasing_by
  exact sizeOf_lt_of_mem_arr e.2

/-- `String(v)` where `v` may be `undefined`. -/
def jsDisplayOpt : Option Json → String
  | none => "undefined"
  | some j => jsDisplay j

/-! ### The profile record and the yaml-parser.js validators

A parsed profile is modelled by its four validated top-level fields, each
an `Option Json` (`none` = key absent).  The repository contains two
versions of utils/yaml-parser.js (they differ only in the required-LoRaWAN
key list); both are embedded below via `validateRequiredFieldsGen`.

A channel config that is `null` makes the JavaScript loops throw
(`config.name` / `config.type` on `null` is a TypeError), so the
channel-iterating checks return `Except String`, with `.error` modelling
the thrown exception. -/

structure CheckResult where
  valid : Bool
  errors : List String
deriving DecidableEq

structure CheckResultW where
  valid : Bool
  errors : List String
  warnings : List String
deriving DecidableEq

structure Profile where
  model : Option Json := none
  codec : Option Json := none
  datatype : Option Json := none
  lorawan : Option Json := none

/-- Dynamic field access `profile[field]` for the four validated keys. -/
def profileGet (p : Profile) : String → Option Json
  | "model" => p.model
  | "codec" => p.codec
  | "datatype" => p.datatype
  | "lorawan" => p.lorawan
  | _ => none

def requiredFields : List String := ["model", "codec", "datatype", "lorawan"]

/-- The `Missing required field` loop of validateRequiredFields:
`if (!profile[field]) errors.push(...)`. -/
def missingFieldErrors (p : Profile) : List String :=
  requiredFields.filterMap fun f =>
    if jsTruthyOpt (profileGet p f) then none
    else some ("Missing required field: " ++ f)

/-- The codec-content block of validateRequiredFields: reached only when
`profile.codec` is truthy; a non-string codec is an error, a string codec
must contain "decodeUplink". -/
def codecContentErrors (p : Profile) : List String :=
  if jsTruthyOpt p.codec then
    match p.codec with
    | some (Json.str s) =>
        if jsIncludes s "decodeUplink" then []
        else ["codec must include decodeUplink function"]
    | _ => ["codec field must be a string"]
  else []

/-- The per-channel loop of the datatype block of validateRequiredFields.
A `null` channel config throws (modelled by `.error`). -/
def datatypeChannelErrors : List (String × Json) → Except String (List String)
  | [] => .ok []
  | (ch, cfg) :: rest =>
    if isNull cfg then
      .error "TypeError: Cannot read properties of null"
    else
      match datatypeChannelErrors rest with
      | .error e => .error e
      | .ok restErrs =>
          .ok (((if jsTruthyOpt (jsField cfg "name") then []
                 else ["datatype." ++ ch ++ ": missing 'name' field"]) ++
                (if jsTruthyOpt (jsField cfg "type") then []
                 else ["datatype." ++ ch ++ ": missing 'type' field"])) ++ restErrs)

/-- The datatype block of validateRequiredFields: reached only when
`profile.datatype` is truthy; a non-object datatype is an error, otherwise
every channel entry is checked for `name` and `type`. -/
def datatypeErrors (p : Profile) : Except String (List String) :=
  if jsTruthyOpt p.datatype then
    match p.datatype with
    | some d =>
        if jsTypeof d != "object" then .ok ["datatype field must be an object"]
        else datatypeChannelErrors (jsEntries d)
    | none => .ok []
  else .ok []

/-- The lorawan block of validateRequiredFields: reached only when
`profile.lorawan` is truthy; a field whose lookup is `undefined`
(`=== undefined` in the source) is reported, so a field explicitly set to
`false` (or `null`) counts as present. -/
def lorawanErrors (req : List String) (p : Profile) : List String :=
  if jsTruthyOpt p.lorawan then
    match p.lorawan with
    | some lw =>
        req.filterMap fun f =>
          if (jsField lw f).isNone then some ("lorawan." ++ f ++ " is required")
          else none
    | none => []
  else []

/-- validateRequiredFields of utils/yaml-parser.js, parameterised by the
required-LoRaWAN key list (the only point where the two source versions
differ). -/
def validateRequiredFieldsGen (lorawanRequired : List String) (p : Profile) :
    Except String CheckResult :=
  match datatypeErrors p with
  | .error e => .error e
  | .ok dtErrs =>
      let errors := missingFieldErrors p ++ codecContentErrors p ++ dtErrs ++
        lorawanErrors lorawanRequired p
      .ok { valid := errors.isEmpty, errors := errors }

/-- The yaml-parser.js version with lorawanRequired =
`['macVersion', 'region', 'supportOTAA']`. -/
def validateRequiredFields0 (p : Profile) : Except String CheckResult :=
  validateRequiredFieldsGen ["macVersion", "region", "supportOTAA"] p

/-- The yaml-parser.js version with lorawanRequired =
`['macVersion', 'supportClassB', 'supportClassC']`. -/
def validateRequiredFields1 (p : Profile) : Except String CheckResult :=
  validateRequiredFieldsGen ["macVersion", "supportClassB", "supportClassC"] p

def supportedTypes : List String :=
  ["AnalogInputObject", "AnalogOutputObject", "AnalogValueObject",
   "BinaryInputObject", "BinaryOutputObject", "BinaryValueObject",
   "OctetStringValueObject"]

/-- `supportedTypes.includes(config.type)`: only an actual string equal to
one of the seven names passes (strict `includes` comparison). -/
def typeSupported (t : Option Json) : Bool :=
  match t with
  | some (Json.str s) => supportedTypes.contains s
  | _ => false

/-- The per-channel loop of validateBACnetObjects.  A `null` channel
config throws on `config.type`. -/
def bacnetChannelErrors : List (String × Json) → Except String (List String)
  | [] => .ok []
  | (ch, cfg) :: rest =>
    if isNull cfg then
      .error "TypeError: Cannot read properties of null"
    else
      match bacnetChannelErrors rest with
      | .error e => .error e
      | .ok restErrs =>
          .ok ((if typeSupported (jsField cfg "type") then []
                else ["datatype." ++ ch ++ ": unsupported BACnet object type '" ++
                      jsDisplayOpt (jsField cfg "type") ++ "'"]) ++ restErrs)

/-- validateBACnetObjects of utils/yaml-parser.js (identical in both
source versions): iterates Object.entries(profile.datatype) when datatype
is truthy; only unsupported-type errors are produced, the units and
updateInterval warnings are commented out in the source so `warnings`
is always empty. -/
def validateBACnetObjects (p : Profile) : Except String CheckResultW :=
  match (if jsTruthyOpt p.datatype then
          match p.datatype with
          | some d => bacnetChannelErrors (jsEntries d)
          | none => Except.ok []
         else Except.ok []) with
  | .error e => .error e
  | .ok errors => .ok { valid := errors.isEmpty, errors := errors, warnings := [] }

def requiredFunctions : List String := ["Decode", "decodeUplink"]

def optionalFunctions : List String := ["Encode", "encodeDownlink"]

/-- validateCodecSyntax of scripts/validate-profile.js on a string codec
source.  The in-sandbox `vm` execution is external-world behaviour and is
parameterised by its outcome: `vmOutcome = some m` means the script threw
with message `m`, `none` means it ran without error. -/
def validateCodecSyntax (codecSource : String) (vmOutcome : Option String) :
    CheckResultW :=
  let errors :=
    (requiredFunctions.filterMap fun f =>
      if jsIncludes codecSource f then none
      else some ("Missing required function: " ++ f)) ++
    (match vmOutcome with
     | some m => ["JavaScript syntax error: " ++ m]
     | none => [])
  let warnings :=
    optionalFunctions.filterMap fun f =>
      if jsIncludes codecSource f then none
      else some ("Optional function not found: " ++ f ++
                 " (downlink control will be unavailable)")
  { valid := errors.isEmpty, errors := errors, warnings := warnings }

/-- validate-profile.js calls `validateCodecSyntax(profile.codec)` without
a type check; when `profile.codec` is undefined or not a string, the first
`codecSource.includes(...)` inside throws a TypeError that propagates out
of validateProfile, so no report is produced. -/
def applyCodecCheck (codec : Option Json) (vmOutcome : Option String) :
    Except String CheckResultW :=
  match codec with
  | some (Json.str s) => .ok (validateCodecSyntax s vmOutcome)
  | _ => .error "TypeError: codecSource.includes is not a function"

/-! ### The test runner of scripts/validate-profile.js

Test cases and expected-output cases come from JSON fixture files; their
`model` fields are optional strings.  The filesystem reads and the
sandboxed codec execution are external-world behaviour: the decode step is
parameterised by a function `decode : TestCase → Except String Json`
standing for `testDecode(codec, tc.fPort, tc.input)` (`.error` = thrown). -/

structure TestCase where
  name : String
  model : Option String := none
  fPort : Json := Json.null
  input : Json := Json.null

structure ExpectedCase where
  name : String
  model : Option String := none
  expectedOutput : Option Json := none

inductive TestStatus where
  | pass
  | fail
deriving DecidableEq

/-- One entry of the `results` list pushed by runTestDataValidation.
`matched` models the JavaScript field: `some (some b)` = `matched: b`,
`some none` = `matched: null`, `none` = field absent. -/
structure TestResult where
  name : String
  model : Option String := none
  status : TestStatus
  result : Option Json := none
  error : Option String := none
  actualOutput : Option Json := none
  expectedOutput : Option Json := none
  matched : Option (Option Bool) := none

structure TestCheck where
  valid : Bool
  errors : List String
  warnings : List String
  results : List TestResult
  currentModel : Option String

/-- JavaScript truthiness of an optional string (`!s` is true for
`undefined` and for the empty string). -/
def jsTruthyStr : Option String → Bool
  | none => false
  | some s => s != ""

/-- Node `path.basename` (without extension stripping): the last nonempty
path segment; both separators are accepted as in the sibling
`extractVendorModel`.  Modelled for paths with a nonempty final segment. -/
def baseNameChars (cs : List Char) : List Char :=
  let isSep := fun c => c == '/' || c == '\\'
  ((cs.reverse.dropWhile isSep).takeWhile fun c => !isSep c).reverse

/-- On the reversed file name, the reversed stem if the name has an
extension (a last '.' that is not its first character), else `none`. -/
def revStem : List Char → Option (List Char)
  | [] => none
  | c :: rest =>
      if c == '.' then (if rest.isEmpty then none else some rest)
      else revStem rest

/-- Drop the `path.extname` suffix from a file name. -/
def stripExtChars (name : List Char) : List Char :=
  match revStem name.reverse with
  | some r => r.reverse
  | none => name

/-- `rest.match(/^[^-]+-(.+)$/)` tail: everything after the first hyphen,
provided it is nonempty. -/
def modelAfterHyphen : List Char → Option (List Char)
  | [] => none
  | c :: cs =>
      if c == '-' then (if cs.isEmpty then none else some cs)
      else modelAfterHyphen cs

/-- The regex `^[^-]+-(.+)$`: requires a nonempty hyphen-free vendor
prefix, then captures the nonempty remainder after the first hyphen. -/
def matchVendorModel : List Char → Option (List Char)
  | [] => none
  | c :: cs => if c == '-' then none else modelAfterHyphen cs

/-- extractModelFromPath of scripts/validate-profile.js: the file name
without directory and extension, matched against `^[^-]+-(.+)$`; the
captured group (the model) or `null`. -/
def extractModelFromPath (filePath : String) : Option String :=
  (matchVendorModel (stripExtChars (baseNameChars filePath.data))).map
    fun cs => String.mk cs

/-- The model filter of runTestDataValidation: a case with a falsy
`model` always runs; if no model was derived from the file name every
case runs; otherwise only cases whose model equals the derived model. -/
def filterTestCases (currentModel : Option String) (cases : List TestCase) :
    List TestCase :=
  cases.filter fun tc =>
    !jsTruthyStr tc.model || !jsTruthyStr currentModel ||
      tc.model == currentModel

/-- `expectedOutputData.testCases.find(...)`: first expected case with the
same name whose model is compatible (either side's model falsy, or both
equal). -/
def findExpectedCase (ecs : List ExpectedCase) (tc : TestCase) :
    Option ExpectedCase :=
  ecs.find? fun ec =>
    ec.name == tc.name &&
      (!jsTruthyStr ec.model || !jsTruthyStr tc.model || ec.model == tc.model)

/-- The `expectedOutput` variable of the loop body: `null` unless a
matching expected case was found, in which case its (possibly absent)
`expectedOutput` field. -/
def expectedOutputFor (expData : Option (List ExpectedCase)) (tc : TestCase) :
    Option Json :=
  match expData with
  | none => none
  | some ecs => (findExpectedCase ecs tc).bind fun ec => ec.expectedOutput

/-- The body of the per-case loop of runTestDataValidation: returns the
result record pushed to `results` and the errors pushed to `errors`.
A decode exception yields a FAIL result for just this case; otherwise the
decode result's `data` field is compared against the expected output when
the latter is truthy. -/
def processCase (decode : TestCase → Except String Json)
    (expData : Option (List ExpectedCase)) (tc : TestCase) :
    TestResult × List String :=
  match decode tc with
  | .error msg =>
      ({ name := tc.name, model := tc.model, status := .fail,
         error := some msg },
       ["Test case '" ++ tc.name ++ "' failed: " ++ msg])
  | .ok res =>
      let actualOutput := jsField res "data"
      match expectedOutputFor expData tc with
      | some expected =>
          if jsTruthy expected then
            if deepEqualOpt actualOutput (some expected) then
              ({ name := tc.name, model := tc.model, status := .pass,
                 result := some res, matched := some (some true) }, [])
            else
              ({ name := tc.name, model := tc.model, status := .fail,
                 error := some "Output does not match expected result",
                 actualOutput := actualOutput,
                 expectedOutput := some expected,
                 matched := some (some false) },
               ["Test case '" ++ tc.name ++ "' output mismatch"])
          else
            ({ name := tc.name, model := tc.model, status := .pass,
               result := some res, matched := some none }, [])
      | none =>
          ({ name := tc.name, model := tc.model, status := .pass,
             result := some res, matched := some none }, [])

/-- The per-case loop itself: each case contributes its result and its
errors, in order; no case aborts the loop. -/
def runCases (decode : TestCase → Except String Json)
    (expData : Option (List ExpectedCase)) :
    List TestCase → List TestResult × List String
  | [] => ([], [])
  | tc :: rest =>
      let r := processCase decode expData tc
      let rs := runCases decode expData rest
      (r.1 :: rs.1, r.2 ++ rs.2)

/-- runTestDataValidation of scripts/validate-profile.js, with the
filesystem parameterised: `testData = none` models a missing
tests/test-data.json (a warning, vacuously valid), `expData = none`
models a missing or empty expected-output file. -/
def runTestDataValidation (decode : TestCase → Except String Json)
    (testData : Option (List TestCase))
    (expData : Option (List ExpectedCase)) (filePath : String) : TestCheck :=
  let currentModel := extractModelFromPath filePath
  match testData with
  | none =>
      { valid := true, errors := [],
        warnings := ["No test data found (tests/test-data.json)"],
        results := [], currentModel := currentModel }
  | some allCases =>
      let filtered := filterTestCases currentModel allCases
      let run := runCases decode expData filtered
      { valid := run.2.isEmpty, errors := run.2, warnings := [],
        results := run.1, currentModel := currentModel }

/-! ### validateProfile of scripts/validate-profile.js

The YAML load, the Ajv schema check, the `vm` execution inside the codec
check, the naming check's path inspection and the test stage's filesystem
reads are external-world behaviour and are parameterised by their
outcomes; the required-field, codec-containment and BACnet checks are
computed by the embedded functions (using the yaml-parser.js version with
required LoRaWAN keys macVersion/supportClassB/supportClassC).  A stage
that throws (`Except.error`) aborts validateProfile with no report. -/

structure Report where
  valid : Bool
  yamlSyntax : Option CheckResult := none
  schema : Option CheckResult := none
  requiredFields : Option CheckResult := none
  codec : Option CheckResultW := none
  bacnet : Option CheckResultW := none
  naming : Option CheckResultW := none
  tests : Option TestCheck := none

def validateProfile (parse : Except String Profile)
    (schemaCheck : CheckResult) (vmOutcome : Option String)
    (namingCheck : CheckResultW) (testCheck : TestCheck)
    (runTests : Bool) : Except String Report :=
  match parse with
  | .error e =>
      .ok { valid := false,
            yamlSyntax := some { valid := false,
                                 errors := ["YAML syntax error: " ++ e] } }
  | .ok profile =>
      match validateRequiredFields1 profile with
      | .error e => .error e
      | .ok fieldsCheck =>
      match applyCodecCheck profile.codec vmOutcome with
      | .error e => .error e
      | .ok codecCheck =>
      match validateBACnetObjects profile with
      | .error e => .error e
      | .ok bacnetCheck =>
          .ok { valid := schemaCheck.valid && fieldsCheck.valid &&
                  codecCheck.valid && bacnetCheck.valid &&
                  (!runTests || testCheck.valid),
                yamlSyntax := some { valid := true, errors := [] },
                schema := some schemaCheck,
                requiredFields := some fieldsCheck,
                codec := some codecCheck,
                bacnet := some bacnetCheck,
                naming := some namingCheck,
                tests := if runTests then some testCheck else none }

/-! ### hexToBytes of scripts/utils/hex-converter.js -/

/-- The characters removed by `hexString.replace(/[\s-]/g, '')`: ASCII
whitespace and hyphens. -/
def strippedChar (c : Char) : Bool :=
  c == ' ' || c == '\t' || c == '\n' || c == '\r' ||
    c == '\x0b' || c == '\x0c' || c == '-'

/-- The character class `[0-9A-Fa-f]` by code point ('0' = 48, '9' = 57,
'A' = 65, 'F' = 70, 'a' = 97, 'f' = 102). -/
def isHexDigit (c : Char) : Bool :=
  (48 ≤ c.toNat && c.toNat ≤ 57) || (97 ≤ c.toNat && c.toNat ≤ 102) ||
    (65 ≤ c.toNat && c.toNat ≤ 70)

/-- The value of one hex digit, as `parseInt` assigns it. -/
def hexVal (c : Char) : Nat :=
  if 48 ≤ c.toNat && c.toNat ≤ 57 then c.toNat - 48
  else if 97 ≤ c.toNat && c.toNat ≤ 102 then c.toNat - 87
  else if 65 ≤ c.toNat && c.toNat ≤ 70 then c.toNat - 55
  else 0

/-- The byte-building loop: `parseInt(cleaned.substr(i, 2), 16)` for
successive pairs of hex digits. -/
def hexPairs : List Char → List Nat
  | c1 :: c2 :: rest => (16 * hexVal c1 + hexVal c2) :: hexPairs rest
  | _ => []

/-- hexToBytes of scripts/utils/hex-converter.js: strip whitespace and
hyphens, reject non-hex characters and odd lengths (thrown errors are
modelled by `.error`), then convert successive digit pairs to bytes. -/
def hexToBytes (hexString : String) : Except String (List Nat) :=
  let cleaned := hexString.data.filter fun c => !strippedChar c
  if !cleaned.all isHexDigit then
    .error ("Invalid hex string: " ++ hexString)
  else if cleaned.length % 2 != 0 then
    .error ("Hex string length must be even: " ++ hexString)
  else
    .ok (hexPairs cleaned)

lemma deepEqual_prim {a b : Json} (ha : isObjLike a = false) (hb : isObjLike b = false) :
    deepEqual a b = strictEqPrim a b := by
  cases a <;> cases b <;>
    simp_all [deepEqual, strictEqPrim, isNull, isObjLike] <;>
    exact (Bool.beq_eq_decide_eq _ _).symm

lemma deepEqual_arr_arr (xs ys : List Json) :
    deepEqual (Json.arr xs) (Json.arr ys) =
      ((xs.length == ys.length) &&
        (xs.zip ys).attach.all fun p => deepEqual p.1.1 p.1.2) := by
  rw [deepEqual]
  simp [strictEqPrim, isNull]

lemma deepEqual_obj_obj (aks bks : List (String × Json)) :
    deepEqual (Json.obj aks) (Json.obj bks) =
      ((aks.length == bks.length) &&
        (aks.map Prod.fst).attach.all fun k =>
          ((bks.map Prod.fst).contains k.1 &&
            deepEqual (jsGet aks k.1) (jsGet bks k.1))) := by
  rw [deepEqual]
  simp [strictEqPrim, isNull, isObjLike, jsEntries]
  intro xs ys h hq
  exact Json.noConfusion h

lemma mem_zip_self {p : Json × Json} {xs : List Json} (h : p ∈ xs.zip xs) :
    p.1 = p.2 ∧ p.1 ∈ xs := by
  induction xs with
  | nil => simp [List.zip] at h
  | cons x xt ih =>
    rw [List.zip_cons_cons] at h
    rcases List.mem_cons.mp h with h1 | h2
    · rw [h1]; exact ⟨rfl, List.mem_cons_self _ _⟩
    · obtain ⟨he, hm⟩ := ih h2
      exact ⟨he, List.mem_cons_of_mem _ hm⟩

theorem deepEqual_refl (x : Json) : deepEqual x x = true := by
  generalize hn : sizeOf x = n
  induction n using Nat.strong_induction_on generalizing x with
  | _ n ih =>
    subst hn
    cases x with
    | null => simp [deepEqual, strictEqPrim]
    | bool b => simp [deepEqual, strictEqPrim]
    | num v => simp [deepEqual, strictEqPrim]
    | str s => simp [deepEqual, strictEqPrim]
    | arr xs =>
      rw [deepEqual_arr_arr]
      simp only [beq_self_eq_true, Bool.true_and, List.all_eq_true]
      intro p _
      obtain ⟨he, hm⟩ := mem_zip_self p.2
      have hlt := sizeOf_lt_of_mem_arr hm
      rw [← he]
      exact ih _ hlt _ rfl
    | obj kvs =>
      rw [deepEqual_obj_obj]
      simp only [beq_self_eq_true, Bool.true_and, List.all_eq_true]
      intro k _
      have hc : (kvs.map Prod.fst).contains k.1 = true := by
        exact List.elem_iff.mpr k.2
      rw [hc]
      simp only [Bool.true_and]
      have hlt := @jsGet_sizeOf_lt (Json.obj kvs) (by simp [isObjLike]) k.1
      simp only [jsEntries] at hlt
      exact ih _ hlt _ rfl

theorem deepEqual_arr_iff {xs ys : List Json} :
    deepEqual (Json.arr xs) (Json.arr ys) = true ↔
      (xs.length = ys.length ∧ ∀ (i : Nat) (hx : i < xs.length) (hy : i < ys.length),
        deepEqual xs[i] ys[i] = true) := by
  rw [deepEqual_arr_arr, Bool.and_eq_true, beq_iff_eq, List.all_eq_true]
  constructor
  · rintro ⟨hlen, hall⟩
    refine ⟨hlen, fun i hx hy => ?_⟩
    have hz : i < (xs.zip ys).length := by simp [List.length_zip]; omega
    have hmem : (xs[i], ys[i]) ∈ xs.zip ys := by
      have := @List.getElem_zip _ _ xs ys i hz
      rw [← this]
      exact List.getElem_mem hz
    exact hall ⟨_, hmem⟩ (List.mem_attach _ _)
  · rintro ⟨hlen, hidx⟩
    refine ⟨hlen, fun p _ => ?_⟩
    obtain ⟨i, hi, hp⟩ := List.mem_iff_getElem.mp p.2
    have hx : i < xs.length := by simp [List.length_zip] at hi; omega
    have hy : i < ys.length := by simp [List.length_zip] at hi; omega
    have := @List.getElem_zip _ _ xs ys i hi
    rw [this] at hp
    have h1 : p.1.1 = xs[i] := by rw [← hp]
    have h2 : p.1.2 = ys[i] := by rw [← hp]
    rw [h1, h2]
    exact hidx i hx hy

theorem deepEqual_obj_iff {aks bks : List (String × Json)}
    (ha : (aks.map Prod.fst).Nodup) (hb : (bks.map Prod.fst).Nodup) :
    deepEqual (Json.obj aks) (Json.obj bks) = true ↔
      ((∀ k, k ∈ aks.map Prod.fst ↔ k ∈ bks.map Prod.fst) ∧
       ∀ k ∈ aks.map Prod.fst, deepEqual (jsGet aks k) (jsGet bks k) = true) := by
  rw [deepEqual_obj_obj, Bool.and_eq_true, beq_iff_eq, List.all_eq_true]
  constructor
  · rintro ⟨hlen, hall⟩
    have hsub : aks.map Prod.fst ⊆ bks.map Prod.fst := by
      intro k hk
      have := hall ⟨k, hk⟩ (List.mem_attach _ _)
      rw [Bool.and_eq_true] at this
      exact List.elem_iff.mp this.1
    have hperm : List.Perm (aks.map Prod.fst) (bks.map Prod.fst) := by
      refine (ha.subperm hsub).perm_of_length_le ?_
      simp [hlen]
    refine ⟨fun k => ⟨fun hk => hperm.mem_iff.mp hk, fun hk => hperm.mem_iff.mpr hk⟩, ?_⟩
    intro k hk
    have := hall ⟨k, hk⟩ (List.mem_attach _ _)
    rw [Bool.and_eq_true] at this
    exact this.2
  · rintro ⟨hiff, hval⟩
    have hsub : aks.map Prod.fst ⊆ bks.map Prod.fst := fun k hk => (hiff k).mp hk
    have hsub' : bks.map Prod.fst ⊆ aks.map Prod.fst := fun k hk => (hiff k).mpr hk
    have hperm : List.Perm (aks.map Prod.fst) (bks.map Prod.fst) :=
      (ha.subperm hsub).antisymm (hb.subperm hsub')
    have hlen : aks.length = bks.length := by
      have := hperm.length_eq
      simpa using this
    refine ⟨hlen, fun k _ => ?_⟩
    rw [Bool.and_eq_true]
    exact ⟨List.elem_iff.mpr (hsub k.2), hval k.1 k.2⟩

/-- C1: the deep-equality comparator implements the recursive relation of the
spec: primitives compare by strict equality; two arrays are equal iff same
length and recursively equal at every index; two (duplicate-free, as JS
objects are) objects are equal iff same key set and recursively equal values
at every key; it is reflexive, and the four concrete examples hold. -/
theorem c1_deep_equality_relation :
    (∀ a b : Json, isObjLike a = false → isObjLike b = false →
        deepEqual a b = strictEqPrim a b) ∧
    (∀ xs ys : List Json,
        deepEqual (Json.arr xs) (Json.arr ys) = true ↔
          (xs.length = ys.length ∧ ∀ (i : Nat) (hx : i < xs.length) (hy : i < ys.length),
            deepEqual xs[i] ys[i] = true)) ∧
    (∀ aks bks : List (String × Json),
        (aks.map Prod.fst).Nodup → (bks.map Prod.fst).Nodup →
        (deepEqual (Json.obj aks) (Json.obj bks) = true ↔
          ((∀ k, k ∈ aks.map Prod.fst ↔ k ∈ bks.map Prod.fst) ∧
           ∀ k ∈ aks.map Prod.fst, deepEqual (jsGet aks k) (jsGet bks k) = true))) ∧
    (∀ x : Json, deepEqual x x = true) ∧
    deepEqual (Json.arr [Json.num 1, Json.num 2]) (Json.arr [Json.num 2, Json.num 1]) = false ∧
    deepEqual (Json.obj [("a", Json.num 1), ("b", Json.num 2)])
      (Json.obj [("b", Json.num 2), ("a", Json.num 1)]) = true ∧
    deepEqual (Json.obj [("a", Json.num 1)])
      (Json.obj [("a", Json.num 1), ("b", Json.num 2)]) = false := by
  refine ⟨fun a b ha hb => deepEqual_prim ha hb,
          fun xs ys => deepEqual_arr_iff,
          fun aks bks ha hb => deepEqual_obj_iff ha hb,
          deepEqual_refl, ?_, ?_, ?_⟩
  · simp +decide [deepEqual, strictEqPrim, isNull, isObjLike, jsEntries, jsGet, assocFind, idxEntries]
  · simp +decide [deepEqual, strictEqPrim, isNull, isObjLike, jsEntries, jsGet, assocFind, idxEntries]
  · simp +decide [deepEqual, strictEqPrim, isNull, isObjLike, jsEntries, jsGet, assocFind, idxEntries]

/-- Witness for C1 at concrete inputs. -/
theorem c1_deep_equality_relation_witness :
    (isObjLike (Json.num 3) = false ∧
      deepEqual (Json.num 3) (Json.str "x") = strictEqPrim (Json.num 3) (Json.str "x")) ∧
    ((([("a", Json.num 1)] : List (String × Json)).map Prod.fst).Nodup ∧
      (deepEqual (Json.obj [("a", Json.num 1)]) (Json.obj [("a", Json.num 1)]) = true ↔
        ((∀ k, k ∈ ([("a", Json.num 1)] : List (String × Json)).map Prod.fst ↔
               k ∈ ([("a", Json.num 1)] : List (String × Json)).map Prod.fst) ∧
         ∀ k ∈ ([("a", Json.num 1)] : List (String × Json)).map Prod.fst,
           deepEqual (jsGet [("a", Json.num 1)] k) (jsGet [("a", Json.num 1)] k) = true))) :=
  ⟨⟨by decide, c1_deep_equality_relation.1 _ _ (by decide) (by decide)⟩,
   ⟨by decide, c1_deep_equality_relation.2.2.1 _ _ (by decide) (by decide)⟩⟩

/-- C9: deepEqual does not distinguish an array from a plain object carrying
the same stringified-index keys: the mixed pair falls through the array
branch into the object branch and compares key-by-key. -/
theorem c9_deepEqual_array_object_mix :
    deepEqual (Json.arr [Json.num 1, Json.num 2])
      (Json.obj [("0", Json.num 1), ("1", Json.num 2)]) = true := by
  simp +decide [deepEqual, strictEqPrim, isNull, isObjLike, jsEntries, jsGet, assocFind, idxEntries]

lemma hexVal_le_15 (c : Char) : hexVal c ≤ 15 := by
  unfold hexVal
  split
  · rename_i h
    simp only [Bool.and_eq_true, decide_eq_true_eq] at h
    omega
  · split
    · rename_i h
      simp only [Bool.and_eq_true, decide_eq_true_eq] at h
      omega
    · split
      · rename_i h
        simp only [Bool.and_eq_true, decide_eq_true_eq] at h
        omega
      · omega

lemma hexPairs_le : ∀ (l : List Char), ∀ b ∈ hexPairs l, b ≤ 255
  | [] => by simp [hexPairs]
  | [c] => by simp [hexPairs]
  | c1 :: c2 :: rest => by
      intro b hb
      simp only [hexPairs, List.mem_cons] at hb
      rcases hb with h | h
      · have g1 := hexVal_le_15 c1
        have g2 := hexVal_le_15 c2
        omega
      · exact hexPairs_le rest b h

lemma hexPairs_length : ∀ (l : List Char), (hexPairs l).length = l.length / 2
  | [] => by simp [hexPairs]
  | [c] => by simp [hexPairs]
  | c1 :: c2 :: rest => by
      simp only [hexPairs, List.length_cons, hexPairs_length rest]
      omega

/-- C10: hexToBytes strips spaces and hyphens, errors exactly on a
non-hex character or odd stripped length, and on success returns one byte
per digit pair, each at most 255. -/
theorem c10_hexToBytes_spec (s : String) :
    ((∃ e, hexToBytes s = Except.error e) ↔
      (¬ ((s.data.filter fun c => !strippedChar c).all isHexDigit = true) ∨
        (s.data.filter fun c => !strippedChar c).length % 2 ≠ 0)) ∧
    (∀ bs, hexToBytes s = Except.ok bs →
      bs.length = (s.data.filter fun c => !strippedChar c).length / 2 ∧
      ∀ b ∈ bs, b ≤ 255) := by
  constructor
  · by_cases h1 : (s.data.filter fun c => !strippedChar c).all isHexDigit = true
    · by_cases h2 : (s.data.filter fun c => !strippedChar c).length % 2 = 0
      · have h2' : (s.data.filter fun c => !strippedChar c).length % 2 ≠ 1 := by omega
        simp [hexToBytes, h1, h2, h2']
      · have h2' : (s.data.filter fun c => !strippedChar c).length % 2 = 1 := by omega
        simp [hexToBytes, h1, h2, h2']
    · simp only [Bool.not_eq_true] at h1
      simp [hexToBytes, h1]
  · intro bs hbs
    by_cases h1 : (s.data.filter fun c => !strippedChar c).all isHexDigit = true
    · by_cases h2 : (s.data.filter fun c => !strippedChar c).length % 2 = 0
      · have h2' : (s.data.filter fun c => !strippedChar c).length % 2 ≠ 1 := by omega
        simp only [hexToBytes, h1, Bool.not_true, Bool.false_eq_true, if_false, h2,
          bne_self_eq_false, ite_false, Except.ok.injEq] at hbs
        subst hbs
        exact ⟨hexPairs_length _, hexPairs_le _⟩
      · have h2' : (s.data.filter fun c => !strippedChar c).length % 2 = 1 := by omega
        simp [hexToBytes, h1, h2'] at hbs
    · simp only [Bool.not_eq_true] at h1
      simp [hexToBytes, h1] at hbs

/-- Witness for C10 at the concrete input "04 01-64". -/
theorem c10_hexToBytes_witness :
    hexToBytes "04 01-64" = Except.ok [4, 1, 100] ∧
    ([4, 1, 100] : List Nat).length =
      ("04 01-64".data.filter fun c => !strippedChar c).length / 2 ∧
    ∀ b ∈ ([4, 1, 100] : List Nat), b ≤ 255 := by
  refine ⟨rfl, ?_, ?_⟩
  · exact ((c10_hexToBytes_spec "04 01-64").2 [4, 1, 100] rfl).1
  · exact ((c10_hexToBytes_spec "04 01-64").2 [4, 1, 100] rfl).2

lemma modelAfterHyphen_ne_nil :
    ∀ {l cs : List Char}, modelAfterHyphen l = some cs → cs ≠ []
  | [], cs => by simp [modelAfterHyphen]
  | c :: rest, cs => by
      simp only [modelAfterHyphen]
      by_cases hc : (c == '-') = true
      · simp only [hc, if_true]
        by_cases he : rest.isEmpty = true
        · simp [he]
        · have he' : rest.isEmpty = false := by simpa using he
          simp only [he', Bool.false_eq_true, if_false, Option.some.injEq]
          intro hrest
          subst hrest
          intro hnil
          subst hnil
          simp at he'
      · simp only [hc, Bool.false_eq_true, if_false]
        exact modelAfterHyphen_ne_nil

lemma extractModelFromPath_ne_empty (p : String) :
    extractModelFromPath p ≠ some "" := by
  unfold extractModelFromPath
  cases hm : matchVendorModel (stripExtChars (baseNameChars p.data)) with
  | none => simp
  | some cs =>
    intro hmk
    have hmk' : String.mk cs = "" := by simpa using hmk
    have hcs : cs ≠ [] := by
      revert hm
      unfold matchVendorModel
      cases stripExtChars (baseNameChars p.data) with
      | nil => simp
      | cons c rest =>
        by_cases hc : (c == '-') = true
        · simp [hc]
        · simp only [hc, Bool.false_eq_true, if_false]
          exact fun h => modelAfterHyphen_ne_nil h
    apply hcs
    have := congrArg String.data hmk'
    simpa using this

/-- The selection rule asserted by the claim for C2: a case is selected
iff its model field is absent or equals the derived model. -/
def claimC2Selects (derived : String) (tc : TestCase) : Bool :=
  tc.model.isNone || tc.model == some derived

/-- C2 counterexample: with derived model "X", a case whose model field
is present but empty is selected by the code (the `!tc.model` truthiness
test treats "" like an absent model), while the claim says only absent or
equal models are selected. -/
theorem c2_model_filter_counterexample :
    extractModelFromPath "profiles/Vendor/Vendor-X.yaml" = some "X" ∧
    ((filterTestCases (extractModelFromPath "profiles/Vendor/Vendor-X.yaml")
        [{ name := "B", model := some "" }]).map fun tc => tc.name) = ["B"] ∧
    ((([{ name := "B", model := some "" }] : List TestCase).filter
        (claimC2Selects "X")).map fun tc => tc.name) = [] :=
  ⟨rfl, rfl, rfl⟩

/-- C2 amended: when a model can be derived from the file path, the
selected cases are exactly those whose model field is absent, empty, or
equal to the derived model (and a derived model is never empty); the
concrete example of the claim holds as stated. -/
theorem c2_model_filter_amended :
    (∀ (path : String) (m : String) (cases : List TestCase),
      extractModelFromPath path = some m →
      filterTestCases (extractModelFromPath path) cases =
        cases.filter fun tc =>
          tc.model.isNone || tc.model == some "" || tc.model == some m) ∧
    (∀ path : String, extractModelFromPath path ≠ some "") ∧
    ((filterTestCases (some "X")
        [{ name := "A", model := some "X" }, { name := "B", model := some "Y" },
         { name := "C" }]).map fun tc => tc.name) = ["A", "C"] := by
  refine ⟨?_, extractModelFromPath_ne_empty, rfl⟩
  intro path m cases hpm
  have hm : m ≠ "" := by
    intro h
    subst h
    exact extractModelFromPath_ne_empty path hpm
  rw [hpm]
  unfold filterTestCases
  apply List.filter_congr
  intro tc _
  cases htc : tc.model with
  | none => simp [jsTruthyStr]
  | some s =>
    by_cases hs : s = ""
    · subst hs
      simp [jsTruthyStr]
    · simp only [jsTruthyStr, htc]
      have h1 : (s != "") = true := by simpa using hs
      have h2 : (m != "") = true := by simpa using hm
      simp [h1, h2, hs]

/-- Witness for C2 at a concrete path and case list. -/
theorem c2_model_filter_amended_witness :
    extractModelFromPath "profiles/Senso8/Senso8-LRS20100.yaml" = some "LRS20100" ∧
    filterTestCases (extractModelFromPath "profiles/Senso8/Senso8-LRS20100.yaml")
        [{ name := "B", model := some "" }] =
      ([{ name := "B", model := some "" }] : List TestCase).filter fun tc =>
        tc.model.isNone || tc.model == some "" || tc.model == some "LRS20100" :=
  ⟨rfl, c2_model_filter_amended.1 _ "LRS20100" _ rfl⟩

def headCh (s : String) : Option Char := s.data.head?

lemma ne_of_headCh {s t : String} (h : headCh s ≠ headCh t) : s ≠ t :=
  fun he => h (congrArg headCh he)

lemma headCh_append {p x : String} (h : p.data ≠ []) :
    headCh (p ++ x) = headCh p := by
  unfold headCh
  rw [String.data_append]
  cases hp : p.data with
  | nil => exact absurd hp h
  | cons c rest => simp

lemma string_append_left_cancel {s t t' : String} (h : s ++ t = s ++ t') :
    t = t' := by
  have hd := congrArg String.data h
  simp only [String.data_append] at hd
  have hdd := List.append_cancel_left hd
  cases t
  cases t'
  exact congrArg String.mk hdd

lemma string_append_right_cancel {s s' t : String} (h : s ++ t = s' ++ t) :
    s = s' := by
  have hd := congrArg String.data h
  simp only [String.data_append] at hd
  have hdd := List.append_cancel_right hd
  cases s
  cases s'
  exact congrArg String.mk hdd

lemma missing_function_ne_vm (f m : String) :
    "Missing required function: " ++ f ≠ "JavaScript syntax error: " ++ m := by
  apply ne_of_headCh
  rw [headCh_append (by decide), headCh_append (by decide)]
  decide

/-- C5: a missing required decode entry point is a hard error naming the
entry point; a missing optional encode entry point is a warning only, and
the check's validity depends only on the required entry points and the
sandbox outcome (warnings never make it invalid). -/
theorem c5_codec_entry_points (s : String) (vmOutcome : Option String) :
    (∀ f ∈ requiredFunctions,
      (("Missing required function: " ++ f) ∈
          (validateCodecSyntax s vmOutcome).errors ↔ jsIncludes s f = false)) ∧
    (∀ f ∈ optionalFunctions,
      (("Optional function not found: " ++ f ++
          " (downlink control will be unavailable)") ∈
          (validateCodecSyntax s vmOutcome).warnings ↔ jsIncludes s f = false)) ∧
    ((validateCodecSyntax s vmOutcome).valid = true ↔
      (jsIncludes s "Decode" = true ∧ jsIncludes s "decodeUplink" = true ∧
        vmOutcome = none)) ∧
    (∀ f ∈ requiredFunctions, jsIncludes s f = false →
      (validateCodecSyntax s vmOutcome).valid = false ∧
      ("Missing required function: " ++ f) ∈
        (validateCodecSyntax s vmOutcome).errors) := by
  rcases vmOutcome with _ | m <;>
    by_cases h1 : jsIncludes s "Decode" = true <;>
    by_cases h2 : jsIncludes s "decodeUplink" = true <;>
    by_cases h3 : jsIncludes s "Encode" = true <;>
    by_cases h4 : jsIncludes s "encodeDownlink" = true <;>
    simp_all +decide [validateCodecSyntax, requiredFunctions, optionalFunctions,
      missing_function_ne_vm]

/-- Witness for C5 at a concrete codec source. -/
theorem c5_codec_entry_points_witness :
    ("decodeUplink" ∈ requiredFunctions) ∧
    (jsIncludes "function Decode() Encode encodeDownlink" "decodeUplink" = false) ∧
    ((validateCodecSyntax "function Decode() Encode encodeDownlink" none).valid = false ∧
      ("Missing required function: " ++ "decodeUplink") ∈
        (validateCodecSyntax "function Decode() Encode encodeDownlink" none).errors) :=
  ⟨by decide, by decide,
   (c5_codec_entry_points "function Decode() Encode encodeDownlink" none).2.2.2
     "decodeUplink" (by decide) (by decide)⟩

/-- C3 (code bug evaluation): a YAML parse failure returns a report with
only the yamlSyntax check and valid = false; but a profile that parses
with no codec field makes validateProfile throw on the unguarded
`codecSource.includes` call instead of accumulating diagnostics of the
remaining stages into a report. -/
theorem c3_validateProfile_crash_on_missing_codec :
    validateProfile (Except.error "bad") { valid := true, errors := [] } none
        { valid := true, errors := [], warnings := [] }
        { valid := true, errors := [], warnings := [], results := [],
          currentModel := none } true =
      Except.ok { valid := false,
                  yamlSyntax := some { valid := false,
                                       errors := ["YAML syntax error: bad"] } } ∧
    validateProfile
        (Except.ok { model := some (Json.str "M"),
                     datatype := some (Json.obj []),
                     lorawan := some (Json.obj [("macVersion", Json.str "1")]) })
        { valid := true, errors := [] } none
        { valid := true, errors := [], warnings := [] }
        { valid := true, errors := [], warnings := [], results := [],
          currentModel := none } true =
      Except.error "TypeError: codecSource.includes is not a function" :=
  ⟨rfl, rfl⟩

lemma prefixed_ne_prefixed {p q : String} (x y : String) (hp : p.data ≠ [])
    (hq : q.data ≠ []) (h : headCh p ≠ headCh q) : p ++ x ≠ q ++ y := by
  apply ne_of_headCh
  rw [headCh_append hp, headCh_append hq]
  exact h

/-- Is `msg` one of the four `Missing required field` messages? -/
def isMissingFieldMsg (msg : String) : Bool :=
  requiredFields.any fun f => msg == "Missing required field: " ++ f

lemma isMissingFieldMsg_prefixed {pre : String} (x : String)
    (hne : pre.data ≠ []) (hpre : headCh pre ≠ some 'M') :
    isMissingFieldMsg (pre ++ x) = false := by
  have hall : ∀ f : String, ((pre ++ x) == "Missing required field: " ++ f) = false := by
    intro f
    rw [beq_eq_false_iff_ne]
    exact prefixed_ne_prefixed x f hne (by decide) (by
      intro hh
      exact hpre (by rw [hh]; decide))
  simp [isMissingFieldMsg, requiredFields, hall]

lemma filterMap_if_eq_map_filter (l : List String) (p : String → Bool)
    (g : String → String) :
    (l.filterMap fun f => if p f then none else some (g f)) =
      (l.filter fun f => !p f).map g := by
  induction l with
  | nil => rfl
  | cons x xs ih => by_cases hx : p x = true <;> simp [hx, ih]

lemma codecContentErrors_shape {p : Profile} :
    ∀ msg ∈ codecContentErrors p,
      msg = "codec must include decodeUplink function" ∨
      msg = "codec field must be a string" := by
  intro msg hmsg
  unfold codecContentErrors at hmsg
  by_cases ht : jsTruthyOpt p.codec = true
  · simp only [ht, if_true] at hmsg
    cases hc : p.codec with
    | none =>
      rw [hc] at hmsg
      simp at hmsg
      exact Or.inr hmsg
    | some c =>
      cases c <;> rw [hc] at hmsg <;> simp_all
  · simp [ht] at hmsg

lemma datatypeChannelErrors_shape :
    ∀ {es : List (String × Json)} {errs : List String},
      datatypeChannelErrors es = Except.ok errs →
      ∀ msg ∈ errs, ∃ ch x, msg = ("datatype." ++ ch) ++ x
  | [], errs => by
      intro h msg hmsg
      simp only [datatypeChannelErrors] at h
      cases h
      simp at hmsg
  | (ch, cfg) :: rest, errs => by
      intro h msg hmsg
      simp only [datatypeChannelErrors] at h
      by_cases hn : isNull cfg = true
      · simp [hn] at h
      · simp only [hn, Bool.false_eq_true, if_false] at h
        cases hrest : datatypeChannelErrors rest with
        | error e => rw [hrest] at h; simp at h
        | ok restErrs =>
          rw [hrest] at h
          simp only [Except.ok.injEq] at h
          subst h
          simp only [List.append_assoc, List.mem_append] at hmsg
          rcases hmsg with ha | hb | h3
          · by_cases hname : jsTruthyOpt (jsField cfg "name") = true
            · simp [hname] at ha
            · simp only [hname, Bool.false_eq_true, if_false,
                List.mem_singleton] at ha
              exact ⟨ch, _, ha⟩
          · by_cases htype : jsTruthyOpt (jsField cfg "type") = true
            · simp [htype] at hb
            · simp only [htype, Bool.false_eq_true, if_false,
                List.mem_singleton] at hb
              exact ⟨ch, _, hb⟩
          · exact datatypeChannelErrors_shape hrest msg h3

lemma datatypeErrors_shape {p : Profile} {errs : List String}
    (h : datatypeErrors p = Except.ok errs) :
    ∀ msg ∈ errs,
      msg = "datatype field must be an object" ∨ ∃ ch x, msg = ("datatype." ++ ch) ++ x := by
  intro msg hmsg
  unfold datatypeErrors at h
  by_cases ht : jsTruthyOpt p.datatype = true
  · simp only [ht, if_true] at h
    cases hd : p.datatype with
    | none => rw [hd] at h; cases h; simp at hmsg
    | some d =>
      rw [hd] at h
      by_cases hobj : (jsTypeof d != "object") = true
      · simp only [hobj, if_true] at h
        cases h
        simp only [List.mem_singleton] at hmsg
        exact Or.inl hmsg
      · simp only [hobj, Bool.false_eq_true, if_false] at h
        exact Or.inr (datatypeChannelErrors_shape h msg hmsg)
  · simp only [ht, Bool.false_eq_true, if_false] at h
    cases h
    simp at hmsg

lemma lorawanErrors_shape {l : List String} {p : Profile} :
    ∀ msg ∈ lorawanErrors l p, ∃ f, msg = ("lorawan." ++ f) ++ " is required" := by
  intro msg hmsg
  unfold lorawanErrors at hmsg
  by_cases ht : jsTruthyOpt p.lorawan = true
  · simp only [ht, if_true] at hmsg
    cases hl : p.lorawan with
    | none => rw [hl] at hmsg; simp at hmsg
    | some lw =>
      rw [hl] at hmsg
      obtain ⟨f, _, hf⟩ := List.mem_filterMap.mp hmsg
      by_cases hu : (jsField lw f).isNone = true
      · simp only [hu, if_true, Option.some.injEq] at hf
        exact ⟨f, hf.symm⟩
      · simp [hu] at hf
  · simp [ht] at hmsg

lemma validateRequiredFieldsGen_ok {l : List String} {p : Profile} {r : CheckResult}
    (h : validateRequiredFieldsGen l p = Except.ok r) :
    ∃ dtErrs, datatypeErrors p = Except.ok dtErrs ∧
      r.errors = missingFieldErrors p ++ codecContentErrors p ++ dtErrs ++
        lorawanErrors l p ∧
      r.valid = r.errors.isEmpty := by
  unfold validateRequiredFieldsGen at h
  cases hdt : datatypeErrors p with
  | error e => rw [hdt] at h; simp at h
  | ok dtErrs =>
    rw [hdt] at h
    simp only [Except.ok.injEq] at h
    refine ⟨dtErrs, rfl, ?_, ?_⟩
    · rw [← h]
    · rw [← h]

lemma isMissingFieldMsg_datatype (ch x : String) :
    isMissingFieldMsg (("datatype." ++ ch) ++ x) = false := by
  refine isMissingFieldMsg_prefixed x ?_ ?_
  · simp only [String.data_append, ne_eq, List.append_eq_nil]
    intro hc
    exact absurd hc.1 (by decide)
  · rw [headCh_append (by decide)]
    decide

lemma isMissingFieldMsg_lorawan (f x : String) :
    isMissingFieldMsg (("lorawan." ++ f) ++ x) = false := by
  refine isMissingFieldMsg_prefixed x ?_ ?_
  · simp only [String.data_append, ne_eq, List.append_eq_nil]
    intro hc
    exact absurd hc.1 (by decide)
  · rw [headCh_append (by decide)]
    decide

/-- C4 amended: whenever validateRequiredFields returns a result, the
`Missing required field` errors it reports are exactly (in order, one
each) those of the four top-level keys whose value is absent or JS-falsy,
and the message for a key appears iff that key's value is absent or
falsy. -/
theorem c4_missing_fields_amended (l : List String) (p : Profile)
    (r : CheckResult) (h : validateRequiredFieldsGen l p = Except.ok r) :
    r.errors.filter isMissingFieldMsg =
      (requiredFields.filter fun f => !jsTruthyOpt (profileGet p f)).map
        (fun f => "Missing required field: " ++ f) ∧
    (∀ f ∈ requiredFields,
      (("Missing required field: " ++ f) ∈ r.errors ↔
        jsTruthyOpt (profileGet p f) = false)) := by
  obtain ⟨dtErrs, hdt, herr, hval⟩ := validateRequiredFieldsGen_ok h
  have hmfe : missingFieldErrors p =
      (requiredFields.filter fun f => !jsTruthyOpt (profileGet p f)).map
        (fun f => "Missing required field: " ++ f) := by
    unfold missingFieldErrors
    exact filterMap_if_eq_map_filter _ _ _
  have hmiss_pred : ∀ msg ∈ missingFieldErrors p, isMissingFieldMsg msg = true := by
    rw [hmfe]
    intro msg hmsg
    obtain ⟨f, hf, rfl⟩ := List.mem_map.mp hmsg
    have hf' : f ∈ requiredFields := (List.mem_filter.mp hf).1
    exact List.any_eq_true.mpr ⟨f, hf', beq_self_eq_true _⟩
  have hcodec_pred : ∀ msg ∈ codecContentErrors p, isMissingFieldMsg msg = false := by
    intro msg hmsg
    rcases codecContentErrors_shape msg hmsg with rfl | rfl <;> decide
  have hdt_pred : ∀ msg ∈ dtErrs, isMissingFieldMsg msg = false := by
    intro msg hmsg
    rcases datatypeErrors_shape hdt msg hmsg with rfl | ⟨ch, x, rfl⟩
    · decide
    · exact isMissingFieldMsg_datatype ch x
  have hlw_pred : ∀ msg ∈ lorawanErrors l p, isMissingFieldMsg msg = false := by
    intro msg hmsg
    obtain ⟨f, rfl⟩ := lorawanErrors_shape msg hmsg
    exact isMissingFieldMsg_lorawan f _
  constructor
  · rw [herr]
    simp only [List.filter_append]
    rw [List.filter_eq_self.mpr hmiss_pred,
        List.filter_eq_nil_iff.mpr (fun a ha => by simp [hcodec_pred a ha]),
        List.filter_eq_nil_iff.mpr (fun a ha => by simp [hdt_pred a ha]),
        List.filter_eq_nil_iff.mpr (fun a ha => by simp [hlw_pred a ha])]
    simpa using hmfe
  · intro f hf
    have hpredf : isMissingFieldMsg ("Missing required field: " ++ f) = true :=
      List.any_eq_true.mpr ⟨f, hf, beq_self_eq_true _⟩
    constructor
    · intro hmem
      rw [herr] at hmem
      simp only [List.append_assoc, List.mem_append] at hmem
      rcases hmem with h1 | h2 | h3 | h4
      · rw [hmfe] at h1
        obtain ⟨f', hf', heq⟩ := List.mem_map.mp h1
        have hff : f' = f := string_append_left_cancel heq
        subst hff
        have := (List.mem_filter.mp hf').2
        simpa using this
      · exact absurd hpredf (by simp [hcodec_pred _ h2])
      · exact absurd hpredf (by simp [hdt_pred _ h3])
      · exact absurd hpredf (by simp [hlw_pred _ h4])
    · intro hfalse
      rw [herr]
      simp only [List.append_assoc, List.mem_append]
      refine Or.inl ?_
      rw [hmfe]
      exact List.mem_map.mpr ⟨f, List.mem_filter.mpr ⟨hf, by simp [hfalse]⟩, rfl⟩

/-- C4 counterexample: a profile whose model key is present but holds the
empty string (and whose lorawan key is absent) gets a `Missing required
field: model` error even though the key is present, so the reported set is
not exactly the missing keys. -/
theorem c4_missing_fields_counterexample :
    ({ model := some (Json.str ""), codec := some (Json.str "Decode decodeUplink"),
       datatype := some (Json.obj []), lorawan := none } : Profile).model ≠ none ∧
    validateRequiredFields1
        { model := some (Json.str ""), codec := some (Json.str "Decode decodeUplink"),
          datatype := some (Json.obj []), lorawan := none } =
      Except.ok { valid := false,
                  errors := ["Missing required field: model",
                             "Missing required field: lorawan"] } :=
  ⟨by simp, rfl⟩

/-- Witness for C4 at a concrete profile. -/
theorem c4_missing_fields_amended_witness :
    validateRequiredFieldsGen ["macVersion", "supportClassB", "supportClassC"]
        { model := some (Json.str ""), codec := some (Json.str "Decode decodeUplink"),
          datatype := some (Json.obj []), lorawan := none } =
      Except.ok { valid := false,
                  errors := ["Missing required field: model",
                             "Missing required field: lorawan"] } ∧
    (["Missing required field: model",
      "Missing required field: lorawan"].filter isMissingFieldMsg =
      (requiredFields.filter fun f =>
        !jsTruthyOpt (profileGet
          { model := some (Json.str ""), codec := some (Json.str "Decode decodeUplink"),
            datatype := some (Json.obj []), lorawan := none } f)).map
        (fun f => "Missing required field: " ++ f)) :=
  ⟨rfl, (c4_missing_fields_amended ["macVersion", "supportClassB", "supportClassC"]
      { model := some (Json.str ""), codec := some (Json.str "Decode decodeUplink"),
        datatype := some (Json.obj []), lorawan := none }
      { valid := false,
        errors := ["Missing required field: model",
                   "Missing required field: lorawan"] } rfl).1⟩

lemma data_append_ne_nil {s : String} (h : s.data ≠ []) (t : String) :
    (s ++ t).data ≠ [] := by
  simp only [String.data_append, ne_eq, List.append_eq_nil]
  intro hc
  exact h hc.1

lemma lorawan_msg_headCh (f : String) :
    headCh (("lorawan." ++ f) ++ " is required") = some 'l' := by
  rw [headCh_append (data_append_ne_nil (by decide) f), headCh_append (by decide)]
  decide

lemma lorawanErrors_nil {req : List String} {p : Profile}
    {kvs : List (String × Json)} (hp : p.lorawan = some (Json.obj kvs))
    (hreq : ∀ f ∈ req, (assocFind kvs f).isSome = true) :
    lorawanErrors req p = [] := by
  unfold lorawanErrors
  rw [hp]
  simp only [jsTruthyOpt, jsTruthy, if_true]
  rw [List.filterMap_eq_nil_iff]
  intro f hf
  have hs := hreq f hf
  cases hx : assocFind kvs f with
  | none => rw [hx] at hs; simp at hs
  | some v =>
    have : (jsField (Json.obj kvs) f).isNone = false := by
      simp [jsField, jsEntries, hx]
    simp [this]

/-- C6: the two source versions of validateRequiredFields are the same
function except for the required-LoRaWAN key list ({macVersion, region,
supportOTAA} vs {macVersion, supportClassB, supportClassC}); on every
profile whose lorawan map defines all of these keys the two versions
agree; and in either version a key explicitly set to false counts as
present (no `lorawan.<f> is required` error). -/
theorem c6_lorawan_required_versions :
    (∀ p, validateRequiredFields0 p =
        validateRequiredFieldsGen ["macVersion", "region", "supportOTAA"] p) ∧
    (∀ p, validateRequiredFields1 p =
        validateRequiredFieldsGen ["macVersion", "supportClassB", "supportClassC"] p) ∧
    (∀ (p : Profile) (kvs : List (String × Json)),
      p.lorawan = some (Json.obj kvs) →
      (∀ f ∈ ["macVersion", "region", "supportOTAA", "supportClassB",
              "supportClassC"], (assocFind kvs f).isSome = true) →
      validateRequiredFields0 p = validateRequiredFields1 p) ∧
    (∀ (l : List String) (p : Profile) (kvs : List (String × Json))
        (f : String) (r : CheckResult),
      p.lorawan = some (Json.obj kvs) →
      assocFind kvs f = some (Json.bool false) →
      validateRequiredFieldsGen l p = Except.ok r →
      ("lorawan." ++ f ++ " is required") ∉ r.errors) := by
  refine ⟨fun p => rfl, fun p => rfl, ?_, ?_⟩
  · intro p kvs hp hfive
    have h0 : lorawanErrors ["macVersion", "region", "supportOTAA"] p = [] := by
      refine lorawanErrors_nil hp ?_
      intro f hf
      apply hfive
      simp only [List.mem_cons, List.not_mem_nil, or_false] at hf ⊢
      tauto
    have h1 : lorawanErrors ["macVersion", "supportClassB", "supportClassC"] p = [] := by
      refine lorawanErrors_nil hp ?_
      intro f hf
      apply hfive
      simp only [List.mem_cons, List.not_mem_nil, or_false] at hf ⊢
      tauto
    show validateRequiredFieldsGen _ p = validateRequiredFieldsGen _ p
    unfold validateRequiredFieldsGen
    cases hdt : datatypeErrors p with
    | error e => rfl
    | ok dtErrs => rw [h0, h1]
  · intro l p kvs f r hp hfind h hmem
    obtain ⟨dtErrs, hdt, herr, _⟩ := validateRequiredFieldsGen_ok h
    rw [herr] at hmem
    simp only [List.append_assoc, List.mem_append] at hmem
    rcases hmem with h1 | h2 | h3 | h4
    · unfold missingFieldErrors at h1
      obtain ⟨f', _, hf'⟩ := List.mem_filterMap.mp h1
      by_cases ht : jsTruthyOpt (profileGet p f') = true
      · simp [ht] at hf'
      · simp only [ht, Bool.false_eq_true, if_false, Option.some.injEq] at hf'
        exact absurd hf'.symm
          (prefixed_ne_prefixed " is required" f'
            (data_append_ne_nil (by decide) f) (by decide)
            (by rw [headCh_append (by decide)]; decide))
    · rcases codecContentErrors_shape _ h2 with heq | heq <;>
        · apply absurd heq
          apply ne_of_headCh
          rw [lorawan_msg_headCh]
          decide
    · rcases datatypeErrors_shape hdt _ h3 with heq | ⟨ch, x, heq⟩
      · apply absurd heq
        apply ne_of_headCh
        rw [lorawan_msg_headCh]
        decide
      · apply absurd heq
        apply ne_of_headCh
        rw [lorawan_msg_headCh,
            headCh_append (data_append_ne_nil (by decide) ch),
            headCh_append (by decide)]
        decide
    · unfold lorawanErrors at h4
      rw [hp] at h4
      simp only [jsTruthyOpt, jsTruthy, if_true] at h4
      obtain ⟨f', _, hf'⟩ := List.mem_filterMap.mp h4
      by_cases hn : (jsField (Json.obj kvs) f').isNone = true
      · simp only [hn, if_true, Option.some.injEq] at hf'
        have hff : f' = f := by
          have h5 : ("lorawan." ++ f') ++ " is required" =
              ("lorawan." ++ f) ++ " is required" := hf'
          have h6 := string_append_right_cancel h5
          exact string_append_left_cancel h6
        subst hff
        rw [show jsField (Json.obj kvs) f' = assocFind kvs f' from rfl, hfind] at hn
        simp at hn
      · simp [hn] at hf'

/-- Witness for C6 at a concrete profile defining all five LoRaWAN keys
(with the class-support flags explicitly false). -/
theorem c6_lorawan_required_versions_witness :
    (∀ f ∈ ["macVersion", "region", "supportOTAA", "supportClassB",
            "supportClassC"],
      (assocFind [("macVersion", Json.str "1.0.3"), ("region", Json.str "EU868"),
                  ("supportOTAA", Json.bool true), ("supportClassB", Json.bool false),
                  ("supportClassC", Json.bool false)] f).isSome = true) ∧
    validateRequiredFields0
        { model := some (Json.str "M"), codec := some (Json.str "decodeUplink"),
          datatype := some (Json.obj []),
          lorawan := some (Json.obj
            [("macVersion", Json.str "1.0.3"), ("region", Json.str "EU868"),
             ("supportOTAA", Json.bool true), ("supportClassB", Json.bool false),
             ("supportClassC", Json.bool false)]) } =
      validateRequiredFields1
        { model := some (Json.str "M"), codec := some (Json.str "decodeUplink"),
          datatype := some (Json.obj []),
          lorawan := some (Json.obj
            [("macVersion", Json.str "1.0.3"), ("region", Json.str "EU868"),
             ("supportOTAA", Json.bool true), ("supportClassB", Json.bool false),
             ("supportClassC", Json.bool false)]) } :=
  ⟨by decide, c6_lorawan_required_versions.2.2.1 _ _ rfl (by decide)⟩

lemma bacnetChannelErrors_ok {kvs : List (String × Json)}
    (hnull : ∀ e ∈ kvs, isNull e.2 = false) :
    bacnetChannelErrors kvs = Except.ok
      ((kvs.filter fun e => !typeSupported (jsField e.2 "type")).map
        fun e => "datatype." ++ e.1 ++ ": unsupported BACnet object type '" ++
                 jsDisplayOpt (jsField e.2 "type") ++ "'") := by
  induction kvs with
  | nil => rfl
  | cons e rest ih =>
    obtain ⟨ch, cfg⟩ := e
    have hn : isNull cfg = false := hnull (ch, cfg) (List.mem_cons_self _ _)
    have hrest := ih fun x hx => hnull x (List.mem_cons_of_mem _ hx)
    simp only [bacnetChannelErrors, hn, Bool.false_eq_true, if_false, hrest]
    by_cases hts : typeSupported (jsField cfg "type") = true <;>
      simp [hts]

/-- C8 amended: on a profile whose datatype map has no null channel
configs, validateBACnetObjects reports exactly one unsupported-type error
per channel whose type is outside the seven supported BACnet object types
(in channel order), no error for supported channels, and never any
warnings; the check is valid iff every channel's type is supported. -/
theorem c8_bacnet_objects_amended (p : Profile) (kvs : List (String × Json))
    (hdt : p.datatype = some (Json.obj kvs))
    (hnull : ∀ e ∈ kvs, isNull e.2 = false) :
    validateBACnetObjects p = Except.ok
      { valid := ((kvs.filter fun e => !typeSupported (jsField e.2 "type")).map
          fun e => "datatype." ++ e.1 ++ ": unsupported BACnet object type '" ++
                   jsDisplayOpt (jsField e.2 "type") ++ "'").isEmpty,
        errors := (kvs.filter fun e => !typeSupported (jsField e.2 "type")).map
          fun e => "datatype." ++ e.1 ++ ": unsupported BACnet object type '" ++
                   jsDisplayOpt (jsField e.2 "type") ++ "'",
        warnings := [] } ∧
    (((kvs.filter fun e => !typeSupported (jsField e.2 "type")).map
        fun e => "datatype." ++ e.1 ++ ": unsupported BACnet object type '" ++
                 jsDisplayOpt (jsField e.2 "type") ++ "'").isEmpty = true ↔
      ∀ e ∈ kvs, typeSupported (jsField e.2 "type") = true) := by
  constructor
  · unfold validateBACnetObjects
    rw [hdt]
    simp only [jsTruthyOpt, jsTruthy, if_true, jsEntries]
    rw [bacnetChannelErrors_ok hnull]
  · rw [List.isEmpty_iff, List.map_eq_nil_iff, List.filter_eq_nil_iff]
    constructor
    · intro hall e he
      have := hall e he
      simpa using this
    · intro hall e he
      simp [hall e he]

/-- C8 counterexample: a datatype map with a null channel config makes
validateBACnetObjects throw (config.type on null), so no error list is
reported at all, although the channel's type is outside the enumeration
and the claim promises exactly one error for it. -/
theorem c8_bacnet_objects_counterexample :
    typeSupported (jsField Json.null "type") = false ∧
    validateBACnetObjects { datatype := some (Json.obj [("1", Json.null)]) } =
      Except.error "TypeError: Cannot read properties of null" :=
  ⟨rfl, rfl⟩

/-- Witness for C8 at a concrete two-channel datatype map. -/
theorem c8_bacnet_objects_amended_witness :
    (∀ e ∈ [("1", Json.obj [("type", Json.str "AnalogInputObject")]),
            ("2", Json.obj [("type", Json.str "FooObject")])],
      isNull e.2 = false) ∧
    validateBACnetObjects
        { datatype := some (Json.obj
            [("1", Json.obj [("type", Json.str "AnalogInputObject")]),
             ("2", Json.obj [("type", Json.str "FooObject")])]) } =
      Except.ok
        { valid := ((([("1", Json.obj [("type", Json.str "AnalogInputObject")]),
                       ("2", Json.obj [("type", Json.str "FooObject")])].filter
              fun e => !typeSupported (jsField e.2 "type")).map
              fun e => "datatype." ++ e.1 ++ ": unsupported BACnet object type '" ++
                       jsDisplayOpt (jsField e.2 "type") ++ "'").isEmpty),
          errors := ([("1", Json.obj [("type", Json.str "AnalogInputObject")]),
                      ("2", Json.obj [("type", Json.str "FooObject")])].filter
              fun e => !typeSupported (jsField e.2 "type")).map
              fun e => "datatype." ++ e.1 ++ ": unsupported BACnet object type '" ++
                       jsDisplayOpt (jsField e.2 "type") ++ "'",
          warnings := [] } :=
  ⟨by decide,
   (c8_bacnet_objects_amended
      { datatype := some (Json.obj
          [("1", Json.obj [("type", Json.str "AnalogInputObject")]),
           ("2", Json.obj [("type", Json.str "FooObject")])]) }
      [("1", Json.obj [("type", Json.str "AnalogInputObject")]),
       ("2", Json.obj [("type", Json.str "FooObject")])] rfl (by decide)).1⟩

/-- C7 counterexample: an expected-output entry that matches the test
case by name exists and its expectedOutput (the number 0) is not
deep-equal to the decode output, yet the code classifies the case as PASS
with matched = null because `if (expectedOutput)` treats the falsy
expected value like an absent one — the claim instead requires a FAIL
carrying both payloads. -/
theorem c7_test_runner_counterexample :
    (findExpectedCase [{ name := "t", expectedOutput := some (Json.num 0) }]
        { name := "t" }).isSome = true ∧
    deepEqualOpt (jsField (Json.obj [("data", Json.num 1)]) "data")
        (some (Json.num 0)) = false ∧
    (processCase (fun _ => Except.ok (Json.obj [("data", Json.num 1)]))
        (some [{ name := "t", expectedOutput := some (Json.num 0) }])
        { name := "t" }).1.status = TestStatus.pass ∧
    (processCase (fun _ => Except.ok (Json.obj [("data", Json.num 1)]))
        (some [{ name := "t", expectedOutput := some (Json.num 0) }])
        { name := "t" }).1.matched = some none := by
  refine ⟨rfl, ?_, rfl, rfl⟩
  simp +decide [deepEqualOpt, deepEqual, strictEqPrim, isNull, isObjLike, jsField,
    jsEntries, assocFind]

/-- C7 amended: the runner processes every selected case independently
(results and errors are the per-case outputs in order, so a decode
exception fails only its own case), and each case is classified exactly
one way: FAIL with the error message on a decode exception; PASS with
matched=true when a truthy expected output exists and deep-equals the
decode output's data field; FAIL with matched=false carrying both actual
and expected payloads when a truthy expected output exists but differs;
and PASS with matched=null when no matching entry with a truthy
expectedOutput exists. -/
theorem c7_test_runner_amended (decode : TestCase → Except String Json)
    (expData : Option (List ExpectedCase)) (cases : List TestCase) :
    ((runCases decode expData cases).1 =
        cases.map fun tc => (processCase decode expData tc).1) ∧
    ((runCases decode expData cases).2 =
        cases.flatMap fun tc => (processCase decode expData tc).2) ∧
    (∀ tc : TestCase,
      (∀ msg, decode tc = Except.error msg →
        (processCase decode expData tc).1.status = TestStatus.fail ∧
        (processCase decode expData tc).1.error = some msg ∧
        (processCase decode expData tc).2 =
          ["Test case '" ++ tc.name ++ "' failed: " ++ msg]) ∧
      (∀ res, decode tc = Except.ok res →
        (∀ exp, expectedOutputFor expData tc = some exp → jsTruthy exp = true →
          (deepEqualOpt (jsField res "data") (some exp) = true →
            (processCase decode expData tc).1.status = TestStatus.pass ∧
            (processCase decode expData tc).1.matched = some (some true) ∧
            (processCase decode expData tc).2 = []) ∧
          (deepEqualOpt (jsField res "data") (some exp) = false →
            (processCase decode expData tc).1.status = TestStatus.fail ∧
            (processCase decode expData tc).1.matched = some (some false) ∧
            (processCase decode expData tc).1.actualOutput = jsField res "data" ∧
            (processCase decode expData tc).1.expectedOutput = some exp ∧
            (processCase decode expData tc).2 =
              ["Test case '" ++ tc.name ++ "' output mismatch"])) ∧
        ((∀ exp, expectedOutputFor expData tc = some exp → jsTruthy exp = false) →
          (processCase decode expData tc).1.status = TestStatus.pass ∧
          (processCase decode expData tc).1.matched = some none ∧
          (processCase decode expData tc).2 = []))) := by
  refine ⟨?_, ?_, ?_⟩
  · induction cases with
    | nil => rfl
    | cons tc rest ih => simp [runCases, ih]
  · induction cases with
    | nil => rfl
    | cons tc rest ih => simp [runCases, ih]
  · intro tc
    refine ⟨?_, ?_⟩
    · intro msg hdec
      simp [processCase, hdec]
    · intro res hdec
      refine ⟨?_, ?_⟩
      · intro exp hexp htr
        refine ⟨?_, ?_⟩
        · intro hdeq
          simp [processCase, hdec, hexp, htr, hdeq]
        · intro hdeq
          simp [processCase, hdec, hexp, htr, hdeq]
      · intro hnone
        cases hexp : expectedOutputFor expData tc with
        | none => simp [processCase, hdec, hexp]
        | some exp =>
          have htr := hnone exp hexp
          simp [processCase, hdec, hexp, htr]

/-- Witness for C7: a decode exception fails its own case with the
exception message attached. -/
theorem c7_test_runner_amended_witness :
    ((fun _ : TestCase => (Except.error "boom" : Except String Json))
        { name := "t" } = Except.error "boom") ∧
    ((processCase (fun _ : TestCase => (Except.error "boom" : Except String Json))
        none { name := "t" }).1.status = TestStatus.fail ∧
     (processCase (fun _ : TestCase => (Except.error "boom" : Except String Json))
        none { name := "t" }).1.error = some "boom" ∧
     (processCase (fun _ : TestCase => (Except.error "boom" : Except String Json))
        none { name := "t" }).2 =
       ["Test case '" ++ "t" ++ "' failed: " ++ "boom"]) :=
  ⟨rfl,
   ((c7_test_runner_amended
       (fun _ : TestCase => (Except.error "boom" : Except String Json))
       none [{ name := "t" }]).2.2 { name := "t" }).1 "boom" rfl⟩
